import Mathlib

/-!
Shallow embedding of the Hyperlane auth-service identity/session subsystem:
`IdentityService.syncUser` / `IdentityService.deleteUser`
(src/apps/auth-service/src/services/identity.service.ts) and
`validateSession` (src/apps/auth-service/src/grpc/auth.handler.ts).

The external stores (Postgres user table, Redis event markers, Redis session
cache) are modelled as explicit state (`Store`); per-call collaborators
(token verifier, Clerk profile API, lane-membership table, uuid generator,
clock, cache availability) are an explicit environment (`Env`).  Protobuf
JSON serialization of the response is modelled as the identity round-trip,
which the spec requires to be byte-exact (§6 "must round-trip
byte-for-byte"), so cache values are stored as response records directly.
External calls performed by a run are recorded in an `ExtCall` trace.
-/

namespace Hyperlane

/-- The `ValidateSessionResponse` protobuf message as constructed by the handler:
`valid`, `userId`, `username`, `avatarUrl`, `roles` (always `[]`), and the
`extraClaims` map, which the handler populates with exactly the keys
`email` and `clerk_id`, modelled as two fields. -/
structure ValidateSessionResponse where
  valid : Bool
  userId : String
  username : String
  avatarUrl : String
  roles : List String
  emailClaim : String
  clerkIdClaim : String
  deriving DecidableEq

/-- One row of the `user` table (Prisma model): `id` is the internal uuidv7,
`clerkId` the external identity, `deletedAt` the soft-delete marker. -/
structure UserRecord where
  id : String
  clerkId : String
  email : String
  username : String
  avatarUrl : Option String
  createdAt : Nat
  updatedAt : Nat
  deletedAt : Option Nat
  deriving DecidableEq

/-- The shared external state: the user table, the processed-event marker
keyspace (`event:processed:<id>` in Redis, stored here as the event ids),
and the session cache keyspace (`session:<tail>` in Redis); cache writes
prepend, so `List.lookup` returns the most recent write for a key. -/
structure Store where
  users : List UserRecord
  markers : List String
  cache : List (String × ValidateSessionResponse)
  deriving DecidableEq

/-- Model of `prisma.user.findUnique({ where: { clerkId } })`: `clerkId` is unique, so
the lookup is the first (and only) row with that `clerkId`. -/
def findUser (users : List UserRecord) (clerkId : String) : Option UserRecord :=
  users.find? (fun u => u.clerkId == clerkId)

/-- The `SyncUserDto` from identity.service.ts. -/
structure SyncUserDto where
  clerkId : String
  email : String
  username : String
  avatarUrl : Option String
  eventId : Option String
  deriving DecidableEq

/-- The `update` branch of `prisma.user.upsert` in `syncUser`: overwrite
`email`, `username`, `avatarUrl` (`?? null`), set `updatedAt`, and clear
`deletedAt` (resurrection). -/
def upsertUpdate (d : SyncUserDto) (now : Nat) (u : UserRecord) : UserRecord :=
  { u with email := d.email, username := d.username, avatarUrl := d.avatarUrl,
           updatedAt := now, deletedAt := none }

/-- The `create` branch of `prisma.user.upsert` in `syncUser`: fresh uuidv7
`id`, fields from the dto, timestamps from the clock, active (`deletedAt`
null). -/
def upsertCreate (d : SyncUserDto) (freshId : String) (now : Nat) : UserRecord :=
  { id := freshId, clerkId := d.clerkId, email := d.email, username := d.username,
    avatarUrl := d.avatarUrl, createdAt := now, updatedAt := now, deletedAt := none }

/-- Model of `prisma.user.upsert({ where: { clerkId }, update, create })`: update the
matching row if one exists, otherwise append a freshly created row. -/
def prismaUpsert (users : List UserRecord) (d : SyncUserDto) (freshId : String)
    (now : Nat) : List UserRecord :=
  if (findUser users d.clerkId).isSome then
    users.map (fun u => if u.clerkId == d.clerkId then upsertUpdate d now u else u)
  else
    users ++ [upsertCreate d freshId now]

/-- Model of `IdentityService.syncUser`: if an `eventId` is supplied and its
processed-event marker exists, return without touching the record store
(second component `false`); otherwise perform the upsert and, if an
`eventId` was supplied, record its marker.  The second component reports
whether the record store was touched. -/
def syncUserRun (st : Store) (d : SyncUserDto) (freshId : String) (now : Nat) :
    Store × Bool :=
  let dup : Bool :=
    match d.eventId with
    | some ev => st.markers.contains ev
    | none => false
  if dup then (st, false)
  else
    let users1 := prismaUpsert st.users d freshId now
    let markers1 :=
      match d.eventId with
      | some ev => ev :: st.markers
      | none => st.markers
    ({ st with users := users1, markers := markers1 }, true)

/-- The store after `IdentityService.syncUser`. -/
def syncUser (st : Store) (d : SyncUserDto) (freshId : String) (now : Nat) : Store :=
  (syncUserRun st d freshId now).1

/-- Model of `IdentityService.deleteUser`: marker present → no-op; otherwise
`prisma.user.update` setting `deletedAt`; if no row matches, Prisma raises
`P2025`, which the catch branch converts to success after still writing the
marker.  Only the `P2025` failure is modelled (other infrastructure failures
are outside the state model), so every modelled run returns `.ok`; the
`Except` codomain records that any other error would propagate uncaught. -/
def deleteUser (st : Store) (clerkId eventId : String) (now : Nat) :
    Except String Store :=
  if st.markers.contains eventId then .ok st
  else if (findUser st.users clerkId).isSome then
    .ok { st with
          users := st.users.map (fun u =>
            if u.clerkId == clerkId then { u with deletedAt := some now } else u),
          markers := eventId :: st.markers }
  else
    .ok { st with markers := eventId :: st.markers }

/-- Does `pat` occur at the front of `s` (character lists)? -/
def chunkAt : List Char → List Char → Bool
  | [], _ => true
  | _ :: _, [] => false
  | p :: ps, c :: cs => p == c && chunkAt ps cs

/-- Does `pat` occur anywhere in `s` (character lists)? -/
def chunkIn (pat : List Char) : List Char → Bool
  | [] => pat.isEmpty
  | c :: cs => chunkAt pat (c :: cs) || chunkIn pat cs

/-- JavaScript `s.includes(pat)`. -/
def strIncludes (s pat : String) : Bool :=
  chunkIn pat.toList s.toList

/-- JavaScript `s.startsWith(pre)`. -/
def strStartsWith (s pre : String) : Bool :=
  chunkAt pre.toList s.toList

/-- JavaScript `s.split(sep)` on character lists (always non-empty result;
`"".split(":") = [""]`, `"lane:".split(":") = ["lane", ""]`). -/
def splitChars (sep : Char) : List Char → List (List Char)
  | [] => [[]]
  | c :: cs =>
    let r := splitChars sep cs
    if c == sep then [] :: r
    else
      match r with
      | [] => [[c]]
      | h :: t => (c :: h) :: t

/-- JavaScript `token.slice(-32)`: the last 32 characters, or the whole
string when it is shorter than 32 characters. -/
def tokenTail (token : String) : String :=
  String.mk (token.toList.drop (token.length - 32))

/-- The session-cache key built by the handler:
`` `session:${token.slice(-32)}` ``. -/
def cacheKeyOf (token : String) : String :=
  "session:" ++ tokenTail token

/-- ConnectRPC status codes used by the handler. -/
inductive ErrCode
  | invalidArgument
  | failedPrecondition
  | permissionDenied
  | internal
  deriving DecidableEq

/-- connect-es string form of a code, as embedded in `ConnectError.message`. -/
def codeString : ErrCode → String
  | .invalidArgument => "invalid_argument"
  | .failedPrecondition => "failed_precondition"
  | .permissionDenied => "permission_denied"
  | .internal => "internal"

/-- An exception raised inside the handler's try block: either a
`ConnectError` thrown by the handler itself or a plain error from a
collaborator (token verifier, profile fetch, `findUniqueOrThrow`). -/
inductive Thrown
  | connect (code : ErrCode) (msg : String)
  | plain (msg : String)
  deriving DecidableEq

/-- The `message` property the catch block inspects: connect-es prefixes a
`ConnectError`'s raw message with the bracketed code string. -/
def thrownMessage : Thrown → String
  | .connect c m => "[" ++ codeString c ++ "] " ++ m
  | .plain m => m

/-- Result of `verifyToken`: a verified subject (`sub`) or a rejection whose
message the catch block inspects (expired / invalid signature / network). -/
inductive VerifyOutcome
  | ok (sub : String)
  | fail (msg : String)
  deriving DecidableEq

/-- One entry of `clerkUser.emailAddresses`. -/
structure EmailEntry where
  id : String
  emailAddress : String
  deriving DecidableEq

/-- The Clerk profile returned by `clerk.users.getUser`. -/
structure ClerkProfile where
  emailAddresses : List EmailEntry
  primaryEmailAddressId : Option String
  username : Option String
  imageUrl : String
  deriving DecidableEq

/-- Model of `clerkUser.emailAddresses.find(e => e.id ===
clerkUser.primaryEmailAddressId)?.emailAddress`. -/
def primaryEmailOf (p : ClerkProfile) : Option String :=
  (p.emailAddresses.find? (fun e => some e.id == p.primaryEmailAddressId)).map
    (fun e => e.emailAddress)

/-- Model of `` clerkUser.username || `user_${clerkId.slice(0,8)}` ``: the JS `||`
falls back on `null` and on the empty string. -/
def usernameOr (uname : Option String) (clerkId : String) : String :=
  match uname with
  | some u => if u = "" then "user_" ++ String.mk (clerkId.toList.take 8) else u
  | none => "user_" ++ String.mk (clerkId.toList.take 8)

/-- Whether the `await redis.get(cacheKey)` at the top of the handler (note:
outside the try block) resolves or rejects on this call. -/
inductive CacheReadBehavior
  | avail
  | fail (msg : String)
  deriving DecidableEq

/-- Prisma `LaneRole` enum values referenced by the handler. -/
inductive LaneRole
  | ADMIN
  | MEMBER
  | BANNED
  deriving DecidableEq

/-- Per-call collaborators of `validateSession`: cache availability, token
verifier outcome, Clerk profile fetch outcome, lane-membership table
(`laneId → userId → role`), the uuidv7 generator and the clock. -/
structure Env where
  cacheRead : CacheReadBehavior
  verify : VerifyOutcome
  profileFetch : Except String ClerkProfile
  membership : String → String → Option LaneRole
  freshId : String
  now : Nat

/-- The `ValidateSessionRequest`: proto3 strings, absent `requiredScope` is `""`. -/
structure ValidateSessionRequest where
  token : String
  requiredScope : String
  deriving DecidableEq

/-- An external call performed during a `validateSession` run. -/
inductive ExtCall
  | cacheGet
  | verifyCredential
  | userFind
  | profileGet
  | userUpsert
  | userFindAgain
  | memberFind
  | cacheSet (key : String) (value : ValidateSessionResponse)
  deriving DecidableEq

/-- Terminal outcome of a `validateSession` call: a returned response, a
thrown `ConnectError`, or an exception propagated from outside the try
block (the cache read). -/
inductive Outcome
  | response (r : ValidateSessionResponse)
  | connectErr (code : ErrCode) (msg : String)
  | raised (msg : String)
  deriving DecidableEq

/-- A finished run: terminal outcome, resulting store, external-call trace. -/
structure RunResult where
  outcome : Outcome
  store : Store
  calls : List ExtCall
  deriving DecidableEq

/-- Model of `create(ValidateSessionResponseSchema, { valid: false })`: every other
field takes its proto3 default. -/
def invalidResponse : ValidateSessionResponse :=
  { valid := false, userId := "", username := "", avatarUrl := "", roles := [],
    emailClaim := "", clerkIdClaim := "" }

/-- The success response the handler constructs: internal id, username,
`avatarUrl || ""`, empty roles, and the email / clerk_id extra claims. -/
def mkResponse (user : UserRecord) (clerkId : String) : ValidateSessionResponse :=
  { valid := true, userId := user.id, username := user.username,
    avatarUrl := user.avatarUrl.getD "", roles := [],
    emailClaim := user.email, clerkIdClaim := clerkId }

/-- Outcome of a try-block run before the catch is applied. -/
inductive TryOut
  | ok (resp : ValidateSessionResponse)
  | thrown (e : Thrown)
  deriving DecidableEq

/-- Steps 4–6 of the handler, after a record is in hand: ban check
(`deletedAt` set → throw `PermissionDenied`), lane-scope check
(`requiredScope` non-empty, starts with `"lane:"`, `parts[1]` non-empty,
membership role `BANNED` → throw `PermissionDenied`), then construct the
response, write it to the cache and return it. -/
def afterLookup (st : Store) (env : Env) (req : ValidateSessionRequest)
    (key : String) (clerkId : String) (user : UserRecord) (calls : List ExtCall) :
    TryOut × Store × List ExtCall :=
  if user.deletedAt.isSome then
    (.thrown (.connect .permissionDenied "User is globally suspended"), st, calls)
  else
    let needScope := req.requiredScope != "" && strStartsWith req.requiredScope "lane:"
    let laneId := String.mk ((splitChars ':' req.requiredScope.toList).getD 1 [])
    if needScope && laneId != "" then
      let memCalls := calls ++ [ExtCall.memberFind]
      if env.membership laneId user.id == some LaneRole.BANNED then
        (.thrown (.connect .permissionDenied "You are banned from this lane"), st,
         memCalls)
      else
        let resp := mkResponse user clerkId
        (.ok resp, { st with cache := (key, resp) :: st.cache },
         memCalls ++ [ExtCall.cacheSet key resp])
    else
      let resp := mkResponse user clerkId
      (.ok resp, { st with cache := (key, resp) :: st.cache },
       calls ++ [ExtCall.cacheSet key resp])

/-- The handler's try block on a cache miss: verify the token, look up the
record, JIT-provision via `syncUser` when absent (rejecting profiles with no
primary email with `FailedPrecondition`), re-look-up
(`findUniqueOrThrow`), then run the checks and respond. -/
def tryBody (st : Store) (env : Env) (req : ValidateSessionRequest) (key : String) :
    TryOut × Store × List ExtCall :=
  match env.verify with
  | .fail msg => (.thrown (.plain msg), st, [.verifyCredential])
  | .ok clerkId =>
    match findUser st.users clerkId with
    | some user => afterLookup st env req key clerkId user [.verifyCredential, .userFind]
    | none =>
      match env.profileFetch with
      | .error msg =>
        (.thrown (.plain msg), st, [.verifyCredential, .userFind, .profileGet])
      | .ok prof =>
        match primaryEmailOf prof with
        | none =>
          (.thrown (.connect .failedPrecondition "User has no email"), st,
           [.verifyCredential, .userFind, .profileGet])
        | some email =>
          let dto : SyncUserDto :=
            { clerkId := clerkId, email := email,
              username := usernameOr prof.username clerkId,
              avatarUrl := some prof.imageUrl, eventId := none }
          let st1 := syncUser st dto env.freshId env.now
          let calls1 : List ExtCall :=
            [.verifyCredential, .userFind, .profileGet, .userUpsert, .userFindAgain]
          match findUser st1.users clerkId with
          | none => (.thrown (.plain "No User found"), st1, calls1)
          | some user => afterLookup st1 env req key clerkId user calls1

/-- Model of `validateSession` (auth.handler.ts): reject an empty token with
`InvalidArgument`; read the cache (outside the try block — a failing read
propagates); on a hit return the cached response verbatim; on a miss run
the try block, and apply the catch block: a message containing `"expired"`
or `"invalid"` becomes a `valid:false` response, anything else becomes
`ConnectError("Internal Auth Error", Internal)`. -/
def validateSession (st : Store) (env : Env) (req : ValidateSessionRequest) :
    RunResult :=
  if req.token = "" then
    ⟨.connectErr .invalidArgument "Token is required", st, []⟩
  else
    let key := cacheKeyOf req.token
    match env.cacheRead with
    | .fail msg => ⟨.raised msg, st, [.cacheGet]⟩
    | .avail =>
      match List.lookup key st.cache with
      | some cached => ⟨.response cached, st, [.cacheGet]⟩
      | none =>
        match tryBody st env req key with
        | (.ok resp, st1, calls) => ⟨.response resp, st1, .cacheGet :: calls⟩
        | (.thrown e, st1, calls) =>
          let m := thrownMessage e
          if strIncludes m "expired" || strIncludes m "invalid" then
            ⟨.response invalidResponse, st1, .cacheGet :: calls⟩
          else
            ⟨.connectErr .internal "Internal Auth Error", st1, .cacheGet :: calls⟩

/-- Predicate used for the cache-write invariant: a `cacheSet` call carries a
`valid:true` response; every other call is unconstrained. -/
def cacheWriteValid : ExtCall → Bool
  | .cacheSet _ v => v.valid
  | _ => true

/-! Concrete inputs used by counterexamples, code-bug runs and witnesses. -/

/-- A soft-deleted (banned) user row. -/
def uBanned : UserRecord :=
  { id := "int-1", clerkId := "u1", email := "a@x.com", username := "n1",
    avatarUrl := none, createdAt := 0, updatedAt := 0, deletedAt := some 5 }

/-- The same row, active. -/
def uActive : UserRecord :=
  { uBanned with deletedAt := none }

/-- Environment: cache available, token verifies to `"u1"`, profile API never
consulted. -/
def envBase : Env :=
  { cacheRead := .avail, verify := .ok "u1", profileFetch := .error "profile unreachable",
    membership := fun _ _ => none, freshId := "f1", now := 10 }

/-- Environment for scenario D: token verifies to `"u2"`, profile carries no
primary email. -/
def envNoEmail : Env :=
  { cacheRead := .avail, verify := .ok "u2",
    profileFetch := .ok { emailAddresses := [], primaryEmailAddressId := none,
                          username := none, imageUrl := "" },
    membership := fun _ _ => none, freshId := "f2", now := 10 }

/-- Scenario A dto: `syncUser(ext="u1", email="a@x.com", eventId="ev1")`. -/
def dtoA : SyncUserDto :=
  { clerkId := "u1", email := "a@x.com", username := "u1name",
    avatarUrl := none, eventId := some "ev1" }

/-- Scenario B dto: the follow-up sync with event id `"ev3"`. -/
def dtoB : SyncUserDto :=
  { clerkId := "u1", email := "a@x.com", username := "u1name",
    avatarUrl := none, eventId := some "ev3" }

/-- Empty store. -/
def stEmpty : Store := ⟨[], [], []⟩

/-- Store with a single active user. -/
def stOne : Store := ⟨[uActive], [], []⟩

/-- The store `stOne` after `deleteUser "u1" "ev2"` at time 5. -/
def stDel : Store := ⟨[uBanned], ["ev2"], []⟩

/-- A cached `valid:true` response used in cache-hit witnesses. -/
def respHit : ValidateSessionResponse :=
  { valid := true, userId := "int-1", username := "n1", avatarUrl := "",
    roles := [], emailClaim := "a@x.com", clerkIdClaim := "u1" }

/-- Store whose session cache holds `respHit` for the key of `"tokW6"`. -/
def stHit : Store := ⟨[], [], [(cacheKeyOf "tokW6", respHit)]⟩

/-! Helper lemmas shared by several claims. -/

/-- Pushing `find?` through a conditional per-key update: updating the rows matching
`cid` with a `clerkId`-preserving function commutes with the lookup. -/
theorem findUser_map_upd (users : List UserRecord) (cid : String)
    (g : UserRecord → UserRecord) (hg : ∀ u, (g u).clerkId = u.clerkId) :
    findUser (users.map (fun u => if u.clerkId == cid then g u else u)) cid
      = (findUser users cid).map g := by
  induction users with
  | nil => rfl
  | cons a l ih =>
    cases hb : a.clerkId == cid with
    | true =>
      simp only [findUser, List.map_cons, hb, if_true]
      rw [List.find?_cons_of_pos _ (by simp [hg, hb]),
          List.find?_cons_of_pos _ (by simp [hb])]
      rfl
    | false =>
      simp only [findUser, List.map_cons, hb, if_false]
      rw [List.find?_cons_of_neg _ (by simp [hb]),
          List.find?_cons_of_neg _ (by simp [hb])]
      exact ih

/-- The record `prismaUpsert` leaves under `d.clerkId`: the updated row when
one existed, the freshly created row otherwise. -/
theorem findUser_prismaUpsert (users : List UserRecord) (d : SyncUserDto)
    (f : String) (t : Nat) :
    findUser (prismaUpsert users d f t) d.clerkId
      = some (match findUser users d.clerkId with
              | some u => upsertUpdate d t u
              | none => upsertCreate d f t) := by
  cases h : findUser users d.clerkId with
  | some u =>
    unfold prismaUpsert
    rw [h]
    simp only [Option.isSome_some, if_true]
    rw [findUser_map_upd users d.clerkId (upsertUpdate d t) (fun u => rfl), h]
    rfl
  | none =>
    unfold prismaUpsert
    rw [h]
    simp only [Option.isSome_none, Bool.false_eq_true, if_false, findUser,
      List.find?_append]
    have hn : List.find? (fun u => u.clerkId == d.clerkId) users = none := h
    rw [hn]
    simp [upsertCreate]

/-- After a successful `deleteUser`, the marker set is the old one possibly
extended by the delete's own event id. -/
theorem deleteUser_markers (st st1 : Store) (cid ev : String) (t : Nat)
    (h : deleteUser st cid ev t = .ok st1) :
    st1.markers = st.markers ∨ st1.markers = ev :: st.markers := by
  unfold deleteUser at h
  split at h
  · exact Or.inl (by cases h; rfl)
  · split at h
    · exact Or.inr (by cases h; rfl)
    · exact Or.inr (by cases h; rfl)

/-- A `syncUser` whose event marker is already present is a complete no-op
that reports the record store untouched. -/
theorem syncUserRun_dup (st : Store) (d : SyncUserDto) (ev f : String) (t : Nat)
    (hev : d.eventId = some ev) (h : ev ∈ st.markers) :
    syncUserRun st d f t = (st, false) := by
  unfold syncUserRun
  rw [hev]
  simp [h]

/-- After a `syncUser` carrying an event id, that event's marker is present. -/
theorem syncUser_marker_mem (st : Store) (d : SyncUserDto) (ev f : String) (t : Nat)
    (hev : d.eventId = some ev) : ev ∈ (syncUser st d f t).markers := by
  unfold syncUser syncUserRun
  rw [hev]
  by_cases h : ev ∈ st.markers
  · simp [h]
  · simp [h]

/-- If no marker blocks it, `syncUser` performs the upsert and records the
event marker. -/
theorem syncUser_step (st : Store) (d : SyncUserDto) (ev f : String) (t : Nat)
    (hev : d.eventId = some ev) (h : ev ∉ st.markers) :
    syncUser st d f t
      = { st with users := prismaUpsert st.users d f t, markers := ev :: st.markers } := by
  unfold syncUser syncUserRun
  rw [hev]
  simp [h]

/-- C3: applying the same `syncUser` event (same dto, same `eventId`) twice
yields the same identity-record state as applying it once; the second call
is gated by the processed-event marker and returns without touching the
record store. -/
theorem C3_syncUser_idempotent (st : Store) (d : SyncUserDto) (ev f1 f2 : String)
    (t1 t2 : Nat) (hev : d.eventId = some ev) :
    syncUserRun (syncUser st d f1 t1) d f2 t2 = (syncUser st d f1 t1, false) :=
  syncUserRun_dup _ d ev f2 t2 hev (syncUser_marker_mem st d ev f1 t1 hev)

/-- C3 witness: scenario A from the empty store; additionally, the first
call leaves exactly one record and exactly the marker `"ev1"`. -/
theorem C3_witness :
    syncUserRun (syncUser stEmpty dtoA "f1" 1) dtoA "f2" 2
        = (syncUser stEmpty dtoA "f1" 1, false)
    ∧ (syncUser stEmpty dtoA "f1" 1).users.length = 1
    ∧ (syncUser stEmpty dtoA "f1" 1).markers = ["ev1"] :=
  ⟨C3_syncUser_idempotent stEmpty dtoA "ev1" "f1" "f2" 1 2 rfl, by decide, by decide⟩

/-- C5: a delete arriving before any creation: with no matching record and no
marker for the event, `deleteUser` succeeds (the `P2025` branch), creates no
record, and still writes the processed-event marker. -/
theorem C5_delete_before_create (st : Store) (cid ev : String) (t : Nat)
    (hu : findUser st.users cid = none) (hm : ev ∉ st.markers) :
    ∃ st2, deleteUser st cid ev t = .ok st2
      ∧ findUser st2.users cid = none
      ∧ ev ∈ st2.markers := by
  refine ⟨{ st with markers := ev :: st.markers }, ?_, ?_, ?_⟩
  · unfold deleteUser
    rw [hu]
    simp [hm]
  · exact hu
  · simp

/-- C5 witness: deleting `"u1"` with event `"ev9"` in the empty store. -/
theorem C5_witness :
    ∃ st2, deleteUser stEmpty "u1" "ev9" 3 = .ok st2
      ∧ findUser st2.users "u1" = none
      ∧ "ev9" ∈ st2.markers :=
  C5_delete_before_create stEmpty "u1" "ev9" 3 rfl (by decide)

/-- C4: after a successful `deleteUser` for `cid`, a `syncUser` for the same
identity whose event id is fresh (distinct from the delete's and not yet
marked) leaves an active record: the upsert clears `deletedAt`
unconditionally in the update branch and creates an active record in the
create branch. -/
theorem C4_delete_then_sync_resurrects (st st1 : Store) (cid ev2 ev3 f : String)
    (d : SyncUserDto) (t1 t2 : Nat)
    (hdel : deleteUser st cid ev2 t1 = .ok st1)
    (hcid : d.clerkId = cid) (hev : d.eventId = some ev3)
    (hm : ev3 ∉ st.markers) (hne : ev3 ≠ ev2) :
    ∃ r, findUser (syncUser st1 d f t2).users cid = some r ∧ r.deletedAt = none := by
  have hm1 : ev3 ∉ st1.markers := by
    rcases deleteUser_markers st st1 cid ev2 t1 hdel with h | h
    · rw [h]; exact hm
    · rw [h]
      simp [List.mem_cons, hne, hm]
  rw [syncUser_step st1 d ev3 f t2 hev hm1, ← hcid]
  show ∃ r, findUser (prismaUpsert st1.users d f t2) d.clerkId = some r
    ∧ r.deletedAt = none
  rw [findUser_prismaUpsert]
  cases findUser st1.users d.clerkId with
  | some u => exact ⟨upsertUpdate d t2 u, rfl, rfl⟩
  | none => exact ⟨upsertCreate d f t2, rfl, rfl⟩

/-- C4 witness: scenario B — `deleteUser("u1","ev2")` on a one-user store,
then `syncUser` with event `"ev3"`, leaves the record active. -/
theorem C4_witness :
    ∃ r, findUser (syncUser stDel dtoB "f" 7).users "u1" = some r
      ∧ r.deletedAt = none :=
  C4_delete_then_sync_resurrects stOne stDel "u1" "ev2" "ev3" "f" dtoB 5 7
    rfl rfl rfl (by decide) (by decide)

/-- C9: the update branch of the upsert never changes `internalId` (`id`),
`createdAt` or `clerkId`: after a `syncUser` for an identity that already
has a record `u`, the record is either untouched (marker no-op) or exactly
`u` with `email`, `username`, `avatarUrl`, `updatedAt` overwritten and
`deletedAt` cleared. -/
theorem C9_update_frame (st : Store) (d : SyncUserDto) (f : String) (t : Nat)
    (u : UserRecord) (hu : findUser st.users d.clerkId = some u) :
    ∃ r, findUser (syncUser st d f t).users d.clerkId = some r
      ∧ r.id = u.id ∧ r.createdAt = u.createdAt ∧ r.clerkId = u.clerkId
      ∧ (r = u ∨ r = upsertUpdate d t u) := by
  unfold syncUser syncUserRun
  cases hev : d.eventId with
  | some ev =>
    by_cases h : st.markers.contains ev = true
    · simp only [h, if_true]
      exact ⟨u, hu, rfl, rfl, rfl, Or.inl rfl⟩
    · simp only [h, if_false]
      refine ⟨upsertUpdate d t u, ?_, rfl, rfl, rfl, Or.inr rfl⟩
      show findUser (prismaUpsert st.users d f t) d.clerkId = _
      rw [findUser_prismaUpsert, hu]
  | none =>
    simp only [if_false]
    refine ⟨upsertUpdate d t u, ?_, rfl, rfl, rfl, Or.inr rfl⟩
    show findUser (prismaUpsert st.users d f t) d.clerkId = _
    rw [findUser_prismaUpsert, hu]

/-- C9 witness: syncing `dtoB` over the store holding `uActive`. -/
theorem C9_witness :
    ∃ r, findUser (syncUser stOne dtoB "f" 9).users dtoB.clerkId = some r
      ∧ r.id = uActive.id ∧ r.createdAt = uActive.createdAt
      ∧ r.clerkId = uActive.clerkId
      ∧ (r = uActive ∨ r = upsertUpdate dtoB 9 uActive) :=
  C9_update_frame stOne dtoB "f" 9 uActive (by decide)

/-- C6: on a live cache entry for the credential's fingerprint, the handler
returns exactly the cached response (`List.lookup` returns the most recent
write, since cache writes prepend), leaves the store untouched, and its only
external call is the cache read — zero calls to the credential verifier,
the record store or the profile fetch. -/
theorem C6_cache_hit_returns_cached (st : Store) (env : Env)
    (req : ValidateSessionRequest) (v : ValidateSessionResponse)
    (htok : req.token ≠ "") (hav : env.cacheRead = .avail)
    (hhit : List.lookup (cacheKeyOf req.token) st.cache = some v) :
    validateSession st env req = ⟨.response v, st, [.cacheGet]⟩ := by
  simp [validateSession, htok, hav, hhit]

/-- C6 witness: a hit on the entry stored for `"tokW6"`. -/
theorem C6_witness :
    validateSession stHit envBase ⟨"tokW6", ""⟩
      = ⟨.response respHit, stHit, [.cacheGet]⟩ :=
  C6_cache_hit_returns_cached stHit envBase ⟨"tokW6", ""⟩ respHit
    (by decide) rfl (by decide)

/-- C8 counterexample: the cache read happens outside the handler's try
block, so when it fails the call terminates with that error after a single
external call — it does not fall back to credential verification, even
though the store here holds an active user and the miss path would have
succeeded. -/
theorem C8_counterexample :
    validateSession stOne { envBase with cacheRead := .fail "cache timeout" }
        ⟨"tok", ""⟩
      = ⟨.raised "cache timeout", stOne, [.cacheGet]⟩ := by decide

/-- C8 (amended): a failing cache read always propagates to the caller as an
error; the miss path (verifier, record store, profile fetch) is never
entered. -/
theorem C8_cache_read_failure_propagates (st : Store) (env : Env)
    (req : ValidateSessionRequest) (msg : String)
    (htok : req.token ≠ "") (hfail : env.cacheRead = .fail msg) :
    validateSession st env req = ⟨.raised msg, st, [.cacheGet]⟩ := by
  simp [validateSession, htok, hfail]

/-- C8 witness: a failing read on the empty store. -/
theorem C8_witness :
    validateSession stEmpty { envBase with cacheRead := .fail "boom" } ⟨"tokW", ""⟩
      = ⟨.raised "boom", stEmpty, [.cacheGet]⟩ :=
  C8_cache_read_failure_propagates stEmpty { envBase with cacheRead := .fail "boom" }
    ⟨"tokW", ""⟩ "boom" (by decide) rfl

/-- C7 counterexample: for the one-character credential `"a"`,
`token.slice(-32)` is the whole credential, so the cache key embeds the
credential's full value, and its length differs from the key of a 33-character
credential — the key is neither fixed-length nor free of the full value. -/
theorem C7_counterexample :
    tokenTail "a" = "a" ∧ cacheKeyOf "a" = "session:a"
    ∧ (cacheKeyOf "a").length
        ≠ (cacheKeyOf "abcdefghijklmnopqrstuvwxyz0123456").length :=
  ⟨rfl, rfl, by decide⟩

/-- C7 (amended): only for credentials longer than 32 characters is the cache
key a fixed-length (40-character) fingerprint derived from the bounded
32-character suffix and distinct from the full credential; shorter
credentials are embedded whole. -/
theorem C7_long_credential_fingerprint (token : String) (h : 32 < token.length) :
    (cacheKeyOf token).length = 40 ∧ tokenTail token ≠ token := by
  have hlen : (tokenTail token).length = 32 := by
    unfold tokenTail
    rw [String.length_mk, List.length_drop]
    have hd : token.toList.length = token.length := rfl
    omega
  constructor
  · unfold cacheKeyOf
    rw [String.length_append, hlen]
    rfl
  · intro hEq
    rw [hEq] at hlen
    omega

/-- C7 witness: a 33-character credential gives a 40-character key that is
not the credential itself. -/
theorem C7_witness :
    (cacheKeyOf "abcdefghijklmnopqrstuvwxyz0123456").length = 40
    ∧ tokenTail "abcdefghijklmnopqrstuvwxyz0123456"
        ≠ "abcdefghijklmnopqrstuvwxyz0123456" :=
  C7_long_credential_fingerprint "abcdefghijklmnopqrstuvwxyz0123456" (by decide)

/-- C1: on a cache miss with a verified credential and a soft-deleted record,
the handler throws `ConnectError(PermissionDenied)` at the ban check, but its
own catch block swallows it (the message contains neither `"expired"` nor
`"invalid"`) and rethrows `ConnectError("Internal Auth Error", Internal)` —
the caller observes an Internal-class error, not the forbidden outcome the
spec describes.  The trace shows the run reached the record checks. -/
theorem C1_ban_yields_internal_not_forbidden :
    (validateSession ⟨[uBanned], [], []⟩ envBase ⟨"tok", ""⟩).outcome
        = .connectErr .internal "Internal Auth Error"
    ∧ (validateSession ⟨[uBanned], [], []⟩ envBase ⟨"tok", ""⟩).calls
        = [.cacheGet, .verifyCredential, .userFind] := by decide

/-- C2: when the credential verifies to a subject with no record and the
provider profile has no primary email, the handler throws
`ConnectError("User has no email", FailedPrecondition)`, but the catch block
swallows it and rethrows `ConnectError("Internal Auth Error", Internal)` —
the caller observes an Internal-class error, not a FailedPrecondition-class
one.  The trace shows JIT provisioning was attempted and rejected. -/
theorem C2_no_email_yields_internal_not_failed_precondition :
    (validateSession stEmpty envNoEmail ⟨"tok2", ""⟩).outcome
        = .connectErr .internal "Internal Auth Error"
    ∧ (validateSession stEmpty envNoEmail ⟨"tok2", ""⟩).calls
        = [.cacheGet, .verifyCredential, .userFind, .profileGet] := by decide

/-- Every call trace produced by the post-lookup checks extends an
all-valid trace only with `memberFind` and `cacheSet` calls whose cached
response is the `valid:true` response the handler constructs. -/
theorem afterLookup_calls_all (st : Store) (env : Env) (req : ValidateSessionRequest)
    (key : String) (cid : String) (user : UserRecord) (calls : List ExtCall)
    (h : calls.all cacheWriteValid = true) :
    ((afterLookup st env req key cid user calls).2.2).all cacheWriteValid = true := by
  simp only [afterLookup]
  split
  · exact h
  · split
    · split
      · simp [List.all_append, h, cacheWriteValid]
      · simp [List.all_append, h, cacheWriteValid, mkResponse]
    · simp [List.all_append, h, cacheWriteValid, mkResponse]

/-- Every call trace produced by the handler's try block has only
`valid:true` cache writes. -/
theorem tryBody_calls_all (st : Store) (env : Env) (req : ValidateSessionRequest)
    (key : String) :
    ((tryBody st env req key).2.2).all cacheWriteValid = true := by
  unfold tryBody
  split
  · rfl
  · split
    · exact afterLookup_calls_all _ _ _ _ _ _ _ rfl
    · split
      · rfl
      · split
        · rfl
        · dsimp only
          split
          · rfl
          · exact afterLookup_calls_all _ _ _ _ _ _ _ rfl

/-- C10: every value `validateSession` ever writes to the session cache is a
`valid:true` response — negative outcomes (verification failure, forbidden,
errors) are never cached. -/
theorem C10_cache_writes_always_valid (st : Store) (env : Env)
    (req : ValidateSessionRequest) :
    ((validateSession st env req).calls).all cacheWriteValid = true := by
  unfold validateSession
  split
  · rfl
  · split
    · rfl
    · dsimp only
      split
      · rfl
      · split
        · rename_i resp st1 calls heq
          have h := tryBody_calls_all st env req (cacheKeyOf req.token)
          rw [heq] at h
          simpa [cacheWriteValid] using h
        · rename_i e st1 calls heq
          have h := tryBody_calls_all st env req (cacheKeyOf req.token)
          rw [heq] at h
          split
          · simpa [cacheWriteValid] using h
          · simpa [cacheWriteValid] using h

end Hyperlane
